import Mathlib

/-!
Verification of the weatherstation-new fetch–normalize–validate–cache pipeline.

Python dictionaries are embedded as insertion-ordered association lists
`List (String × α)`; a key lookup returns the first matching entry, and the
code under scrutiny only ever inserts fresh keys, so insertion is modelled
as appending.  Numeric sample values are opaque and modelled as `Int`; a
JSON null inside an hourly series is `Option.none`.
-/

set_option maxRecDepth 8192

/-- First-match lookup in an association list: the meaning of `h[k]` /
`k in h` on a Python dict. -/
def lookupField {α : Type} (h : List (String × α)) (k : String) : Option α :=
  (h.find? (fun p => p.1 == k)).map (fun p => p.2)

/-- `k in h` for a Python dict. -/
def hasField {α : Type} (h : List (String × α)) (k : String) : Bool :=
  (lookupField h k).isSome

/-! ## Field Normalizer

Embedding of `WeatherDataManager._normalize_field_names`
(`src/weather_station/data_manager.py:412-449`); the copy in
`LiveWeatherDataManager._normalize_field_names`
(`src/weather_station/live_data_manager.py:164-201`) is identical
line for line, so one embedding covers both.
-/

/-- The `field_mappings` table: canonical field name paired with its
model-qualified aliases in priority order, in source order. -/
def fieldMappings : List (String × List String) :=
  [ ("temperature_2m",
      ["temperature_2m_ecmwf_ifs025", "temperature_2m_ncep_gfs025",
       "temperature_2m_meteofrance_arpege_world025"]),
    ("relative_humidity_2m",
      ["relative_humidity_2m_ecmwf_ifs025", "relative_humidity_2m_ncep_gfs025",
       "relative_humidity_2m_meteofrance_arpege_world025"]),
    ("pressure_msl",
      ["pressure_msl_ecmwf_ifs025", "pressure_msl_ncep_gfs025",
       "pressure_msl_meteofrance_arpege_world025"]),
    ("wind_speed_10m",
      ["wind_speed_10m_ecmwf_ifs025", "wind_speed_10m_ncep_gfs025",
       "wind_speed_10m_meteofrance_arpege_world025"]),
    ("wind_direction_10m",
      ["wind_direction_10m_ecmwf_ifs025", "wind_direction_10m_ncep_gfs025",
       "wind_direction_10m_meteofrance_arpege_world025"]),
    ("precipitation",
      ["precipitation_ecmwf_ifs025", "precipitation_ncep_gfs025",
       "precipitation_meteofrance_arpege_world025"]),
    ("dew_point_2m",
      ["dew_point_2m_ecmwf_ifs025", "dew_point_2m_ncep_gfs025",
       "dew_point_2m_meteofrance_arpege_world025"]),
    ("apparent_temperature",
      ["apparent_temperature_ecmwf_ifs025", "apparent_temperature_ncep_gfs025",
       "apparent_temperature_meteofrance_arpege_world025"]) ]

/-- The canonical field names, in table order. -/
def canonicalNames : List String := fieldMappings.map (fun m => m.1)

/-- `any(field_name in models for models in field_mappings.values())`:
the field name is a recognized model-qualified alias of some canonical field. -/
def isAliasName (k : String) : Bool :=
  fieldMappings.any (fun m => m.2.contains k)

/-- The `Copy time field` step: `normalized_hourly['time'] = hourly['time']`
when present. -/
def timePart {α : Type} (h : List (String × α)) : List (String × α) :=
  match lookupField h "time" with
  | some v => [("time", v)]
  | none => []

/-- One canonical binding: the value of the first alias of `m` present in the
input (`break  # Use first available model`), tagged with the canonical name. -/
def canonBinding {α : Type} (h : List (String × α)) (m : String × List String) :
    Option (String × α) :=
  (m.2.findSome? (fun a => lookupField h a)).map (fun v => (m.1, v))

/-- The `Normalize field names` loop over a mapping table `ms`. -/
def canonPartOf {α : Type} (ms : List (String × List String))
    (h : List (String × α)) : List (String × α) :=
  ms.filterMap (canonBinding h)

/-- The `Copy any fields that don't need normalization` loop: each input entry
is appended unless its key is already bound in the accumulated output or is a
recognized alias. -/
def passFold {α : Type} (h base : List (String × α)) : List (String × α) :=
  h.foldl
    (fun acc kv => if hasField acc kv.1 || isAliasName kv.1 then acc else acc ++ [kv])
    base

/-- `_normalize_field_names` restricted to the hourly map it rewrites:
time copy, then canonical bindings in table order, then pass-through. -/
def normalizeHourly {α : Type} (h : List (String × α)) : List (String × α) :=
  passFold h (timePart h ++ canonPartOf fieldMappings h)

/-- The value the alias scan would bind to canonical field `k`: the first
present alias's value, if `k` names a mapping row and some alias is present. -/
def canonAliasValue {α : Type} (h : List (String × α)) (k : String) : Option α :=
  (fieldMappings.find? (fun m => m.1 == k)).bind
    (fun m => m.2.findSome? (fun a => lookupField h a))

/-- Canonical field `k` receives a binding from the alias scan. -/
def boundCanonically {α : Type} (h : List (String × α)) (k : String) : Bool :=
  fieldMappings.any (fun m => m.1 == k && m.2.any (fun a => hasField h a))

/-! ## Data model

An hourly field value is either a JSON array of numeric-or-null samples
(`series`) or any non-array JSON value (`scalar`); the code only ever asks
`isinstance(values, list)` of it, so non-arrays are opaque.  A `WData` is the
per-location record built by `_fetch_live_weather_data`: the (possibly
absent) `hourly` map plus the metadata the fetcher stamps on.
-/

inductive HVal where
  | series (values : List (Option Int))
  | scalar (v : Int)
deriving DecidableEq

structure WData where
  hourly : Option (List (String × HVal))
  city : String
  latitude : Int
  longitude : Int
deriving DecidableEq

/-- The content of `output_data.json`: location name → record. -/
abbrev Snapshot := List (String × WData)

/-! ## Quality Validator

Embedding of `WeatherDataManager._has_valid_weather_data`
(`src/weather_station/data_manager.py:310-328`).
`non_null_count > len(values) * 0.25` is float arithmetic in the source, but
`len(values) * 0.25` is exactly `len/4` in binary floating point for every
realistic length, so the comparison is exactly `4 * non_null_count > len`.
-/

def keyParams : List String :=
  ["temperature_2m", "pressure_msl", "relative_humidity_2m", "wind_speed_10m"]

/-- `param in hourly and isinstance(hourly[param], list)` and at least 25%
of the samples non-null (strictly more than a quarter). -/
def paramHasValidValues (hourly : List (String × HVal)) (param : String) : Bool :=
  match lookupField hourly param with
  | some (HVal.series values) =>
      decide (values.length < 4 * values.countP (fun v => v.isSome))
  | _ => false

/-- `_has_valid_weather_data(data)`: `None` and records without an `hourly`
key are rejected; otherwise any one key parameter clearing the threshold
accepts the record. -/
def hasValidWeatherData (data : Option WData) : Bool :=
  match data with
  | none => false
  | some d =>
    match d.hourly with
    | none => false
    | some hourly => keyParams.any (paramHasValidValues hourly)

/-- The same check on a record known to exist (used inside the batch loop,
where `data` has already been tested truthy). -/
def hasValidW (d : WData) : Bool := hasValidWeatherData (some d)

/-! ## Fetch Client

Embedding of `LiveWeatherDataManager._fetch_live_weather_data`
(`src/weather_station/live_data_manager.py:108-162`).  The HTTP layer is an
oracle `HttpOutcome`: the request either raises a timeout, raises a
connection error, or yields a response with a status code and a parsed JSON
body.  `raise_for_status()` raises exactly when the status is >= 400, and
every raised exception is caught by one of the three `except` clauses, each
of which returns `None`.
-/

inductive HttpOutcome where
  | timeout
  | connectionError
  | response (status : Nat) (body : WData)

def fetchLiveWeatherData (city : String) (latitude longitude : Int)
    (h : HttpOutcome) : Option WData :=
  match h with
  | HttpOutcome.timeout => none
  | HttpOutcome.connectionError => none
  | HttpOutcome.response status body =>
    if status ≥ 400 then none
    else
      some { hourly := body.hourly.map (fun hh => normalizeHourly hh),
             city := city, latitude := latitude, longitude := longitude }

/-! ## Batch Orchestrator

Embedding of `WeatherDataManager._fetch_data_with_rate_limiting`
(`src/weather_station/data_manager.py:257-308`).  The per-location fetch is
an oracle `FetchRes`: the call either returns a record, returns `None`, or
raises.  The `time.sleep` pacing and progress logging do not touch the
accumulated state and are omitted.
-/

inductive FetchRes where
  | ok (d : WData)
  | noData
  | exc
deriving DecidableEq

/-- The loop body of `_fetch_data_with_rate_limiting`: accepted records are
added to `live_data` and counted in `completed`; a `None` result, an invalid
record or an exception increments `failed` and the loop continues. -/
def fetchBatchAux (locs : List (String × (Int × Int))) (f : String → FetchRes)
    (acc : List (String × WData)) (completed failed : Nat) :
    List (String × WData) × Nat × Nat :=
  match locs with
  | [] => (acc, completed, failed)
  | (city, _) :: rest =>
    match f city with
    | FetchRes.ok d =>
      if hasValidW d then fetchBatchAux rest f (acc ++ [(city, d)]) (completed + 1) failed
      else fetchBatchAux rest f acc completed (failed + 1)
    | FetchRes.noData => fetchBatchAux rest f acc completed (failed + 1)
    | FetchRes.exc => fetchBatchAux rest f acc completed (failed + 1)

def fetchBatch (locs : List (String × (Int × Int))) (f : String → FetchRes) :
    List (String × WData) × Nat × Nat :=
  fetchBatchAux locs f [] 0 0

/-! ## Snapshot Cache and update

Embedding of `WeatherDataManager._perform_update`
(`src/weather_station/data_manager.py:196-227`) and
`WeatherDataManager.load_weather_data` (`:238-255`).  The on-disk
`output_data.json` is the state `DiskFile`: absent, corrupt (present but
`json.load` raises on it), or holding a snapshot.  The write phase
`open(output_file, 'w'); json.dump(...); output_file.stat()` can fail at
three distinct points with three distinct effects on the file:
`open('w')` truncates the file *before* `json.dump` writes anything, so a
failure before the open (mkdir/open itself) leaves the file untouched, a
failure raised during the dump leaves a truncated, unparseable file, and a
failure in the `stat()` call of the logging line happens after the new
content is fully on disk.  `WriteResult` is that oracle; every raise is
caught by the enclosing `except`, which returns `False`.
-/

inductive DiskFile where
  | absent
  | corrupt
  | content (s : Snapshot)
deriving DecidableEq

inductive WriteResult where
  | ok
  | errBeforeOpen
  | errDuringDump
  | errAfterDump
deriving DecidableEq

/-- `load_weather_data`: `None` when the file is absent
(`output_file.exists()` is false) or unparseable (the `json.load` exception
is caught), otherwise the parsed snapshot. -/
def loadWeatherData (file : DiskFile) : Option Snapshot :=
  match file with
  | DiskFile.absent => none
  | DiskFile.corrupt => none
  | DiskFile.content s => some s

/-- `_perform_update`: returns the success flag and the resulting on-disk
state.  Empty location catalog and an empty fetched-and-validated mapping
both return `False` before any write. -/
def performUpdate (file : DiskFile) (locs : List (String × (Int × Int)))
    (f : String → FetchRes) (w : WriteResult) : Bool × DiskFile :=
  if locs.isEmpty then (false, file)
  else
    let fresh := (fetchBatch locs f).1
    if fresh.isEmpty then (false, file)
    else
      match w with
      | WriteResult.ok => (true, DiskFile.content fresh)
      | WriteResult.errBeforeOpen => (false, file)
      | WriteResult.errDuringDump => (false, DiskFile.corrupt)
      | WriteResult.errAfterDump => (false, DiskFile.content fresh)

/-! ## Refresh staleness check

Embedding of `WeatherDataManager.should_update_data`
(`src/weather_station/data_manager.py:92-116`) over the snapshot file's
modification time; `DATA_UPDATE_INTERVAL` is the default from
`src/weather_station/config.py:30`.
-/

def DATA_UPDATE_INTERVAL : Int := 604800

def shouldUpdateData (fileMtime : Option Int) (now : Int) (interval : Int) :
    Bool :=
  match fileMtime with
  | none => true
  | some mtime => decide (now - mtime ≥ interval)

/-! ## Multi-location endpoint and limit clamping

Embedding of the `get_weather_data` route
(`src/weather_station/index.py:212-303`) and
`LiveWeatherDataManager._fetch_multiple_cities_data`
(`src/weather_station/live_data_manager.py:66-106`).
-/

/-- `limit = max(1, min(limit, 300))`. -/
def clampLimit (limit : Int) : Int := max 1 (min limit 300)

/-- `_fetch_multiple_cities_data`: `if limit and count >= limit: break` at
the top of each iteration; a record adds to `result` and bumps `count`, a
`None` result or an exception bumps `errors` and continues. -/
def fetchMultipleCitiesData (locs : List (String × (Int × Int))) (limit : Int)
    (f : String → FetchRes) (count errors : Nat) :
    List (String × WData) × Nat :=
  match locs with
  | [] => ([], errors)
  | (city, _) :: rest =>
    if limit ≠ 0 ∧ (count : Int) ≥ limit then ([], errors)
    else
      match f city with
      | FetchRes.ok d =>
        ((city, d) :: (fetchMultipleCitiesData rest limit f (count + 1) errors).1,
         (fetchMultipleCitiesData rest limit f (count + 1) errors).2)
      | FetchRes.noData => fetchMultipleCitiesData rest limit f count (errors + 1)
      | FetchRes.exc => fetchMultipleCitiesData rest limit f count (errors + 1)

/-- The live branch of the `get_weather_data` route: clamp the limit, slice
the catalog to the first `limit` entries, then batch-fetch with the clamped
limit. -/
def getWeatherDataLive (locations : List (String × (Int × Int))) (limit : Int)
    (f : String → FetchRes) : List (String × WData) :=
  let eff := clampLimit limit
  (fetchMultipleCitiesData (locations.take eff.toNat) eff f 0 0).1

/-- The file branch of the `get_weather_data` route:
`if limit < len(data): data = dict(list(data.items())[:limit])`. -/
def getWeatherDataFile (data : Snapshot) (limit : Int) : Snapshot :=
  let eff := clampLimit limit
  if eff < (data.length : Int) then data.take eff.toNat else data

/-! ## Current conditions

Embedding of the `current` map built by
`LiveWeatherDataManager.get_current_conditions`
(`src/weather_station/live_data_manager.py:203-230`):
`current_hour_index = -1`, and a parameter is bound to
`values[-1]` exactly when `isinstance(values, list)` and
`len(values) > abs(-1)`.
-/

def currentEntry (p : String × HVal) : Option (String × Option Int) :=
  match p.2 with
  | HVal.series values =>
    if values.length > 1 then values.getLast?.map (fun last => (p.1, last))
    else none
  | HVal.scalar _ => none

def getCurrentConditionsCurrent (hourly : List (String × HVal)) :
    List (String × Option Int) :=
  hourly.filterMap currentEntry

/-! ## Concrete records used by witnesses and counterexamples -/

/-- A record whose `temperature_2m` series is entirely non-null: accepted by
the Quality Validator. -/
def wGood : WData :=
  { hourly := some [("time", HVal.scalar 0),
                    ("temperature_2m", HVal.series [some 20, some 21])],
    city := "Paris", latitude := 48, longitude := 2 }

/-- A second accepted record, distinct from `wGood`. -/
def wOld : WData :=
  { hourly := some [("temperature_2m", HVal.series [some 7, some 8])],
    city := "Oslo", latitude := 59, longitude := 10 }

/-- Hourly map whose four key parameters are each 100% null. -/
def allNullHourly : List (String × HVal) :=
  [("time", HVal.scalar 0),
   ("temperature_2m", HVal.series [none, none, none, none]),
   ("pressure_msl", HVal.series [none, none, none, none]),
   ("relative_humidity_2m", HVal.series [none, none, none, none]),
   ("wind_speed_10m", HVal.series [none, none, none, none])]

/-- Hourly map where `temperature_2m` is 30% non-null (3 of 10) and the
other three key parameters are 0% non-null. -/
def oneParamHourly : List (String × HVal) :=
  [("temperature_2m",
     HVal.series [some 1, some 2, some 3, none, none, none, none, none, none, none]),
   ("pressure_msl", HVal.series (List.replicate 10 none)),
   ("relative_humidity_2m", HVal.series (List.replicate 10 none)),
   ("wind_speed_10m", HVal.series (List.replicate 10 none))]

/-- The alias list configured for `temperature_2m`. -/
def tempAliases : List String :=
  ["temperature_2m_ecmwf_ifs025", "temperature_2m_ncep_gfs025",
   "temperature_2m_meteofrance_arpege_world025"]

/-- An hourly map containing the canonical name `temperature_2m` directly and
none of its model-qualified aliases. -/
def hCanonOnly : List (String × Int) := [("temperature_2m", 1)]

/-- A purely canonical hourly map (no alias names at all). -/
def hCanonThree : List (String × Int) :=
  [("time", 0), ("temperature_2m", 1), ("uv_index", 2)]

/-- An hourly map holding `time`, one model-qualified alias, and an
unrecognized extra field. -/
def hMixed : List (String × Int) :=
  [("time", 10), ("temperature_2m_ncep_gfs025", 5), ("uv_index", 7)]

theorem lookupField_nil {α : Type} (k : String) :
    lookupField ([] : List (String × α)) k = none := rfl

theorem lookupField_cons {α : Type} (q : String) (v : α) (t : List (String × α))
    (k : String) :
    lookupField ((q, v) :: t) k = if q == k then some v else lookupField t k := by
  cases hq : q == k <;> simp [lookupField, List.find?, hq]

theorem lookupField_append {α : Type} (a b : List (String × α)) (k : String) :
    lookupField (a ++ b) k =
      match lookupField a k with
      | some v => some v
      | none => lookupField b k := by
  induction a with
  | nil => simp [lookupField_nil]
  | cons p t ih =>
    rw [List.cons_append, show p = (p.1, p.2) from rfl, lookupField_cons,
      lookupField_cons]
    cases hq : p.1 == k <;> simp [ih]

theorem mem_keys_of_lookupField {α : Type} {h : List (String × α)} {k : String}
    {v : α} (hl : lookupField h k = some v) : k ∈ h.map (fun p => p.1) := by
  induction h with
  | nil => simp [lookupField_nil] at hl
  | cons p t ih =>
    rw [show p = (p.1, p.2) from rfl, lookupField_cons] at hl
    by_cases hq : p.1 == k
    · simp only [List.map_cons, List.mem_cons]
      exact Or.inl (beq_iff_eq.mp hq).symm
    · simp only [hq, if_neg] at hl
      simp only [Bool.not_eq_true] at hq
      simp only [List.map_cons, List.mem_cons]
      exact Or.inr (ih (by simpa [hq] using hl))

theorem canonBinding_eq_some {α : Type} {h : List (String × α)}
    {m : String × List String} {p : String × α}
    (hb : canonBinding h m = some p) :
    p.1 = m.1 ∧ m.2.findSome? (fun a => lookupField h a) = some p.2 := by
  unfold canonBinding at hb
  cases hfs : m.2.findSome? (fun a => lookupField h a) with
  | none => rw [hfs] at hb; simp at hb
  | some v =>
    rw [hfs] at hb
    simp only [Option.map_some'] at hb
    have hpv := Option.some.inj hb
    rw [← hpv]
    exact ⟨rfl, rfl⟩

theorem findSome?_eq_none_of_all_none {α β : Type} {L : List α}
    {f : α → Option β} (hf : ∀ a ∈ L, f a = none) : L.findSome? f = none := by
  induction L with
  | nil => rfl
  | cons a t ih =>
    rw [List.findSome?_cons]
    rw [hf a (List.mem_cons_self a t)]
    exact ih (fun x hx => hf x (List.mem_cons_of_mem a hx))

/-- A key absent from a mapping table's names is absent from the canonical part. -/
theorem lookupField_canonPartOf_of_not_mem {α : Type}
    (ms : List (String × List String)) (h : List (String × α)) (k : String)
    (hk : k ∉ ms.map (fun m => m.1)) :
    lookupField (canonPartOf ms h) k = none := by
  induction ms with
  | nil => rfl
  | cons m t ih =>
    simp only [List.map_cons, List.mem_cons, not_or] at hk
    rw [canonPartOf, List.filterMap_cons]
    cases hb : canonBinding h m with
    | none => exact ih hk.2
    | some p =>
      have hp1 : p.1 = m.1 := (canonBinding_eq_some hb).1
      rw [show p = (p.1, p.2) from rfl, lookupField_cons]
      have : (p.1 == k) = false := by
        rw [beq_eq_false_iff_ne, hp1]
        exact fun hc => hk.1 hc.symm
      rw [this]
      simp only [if_neg Bool.false_ne_true]
      exact ih hk.2

/-- Lookup in the canonical part is the alias scan of the row named `k`,
provided the table's canonical names are distinct. -/
theorem lookupField_canonPartOf (ms : List (String × List String))
    {α : Type} (h : List (String × α)) (k : String)
    (hnd : (ms.map (fun m => m.1)).Nodup) :
    lookupField (canonPartOf ms h) k =
      (ms.find? (fun m => m.1 == k)).bind
        (fun m => m.2.findSome? (fun a => lookupField h a)) := by
  induction ms with
  | nil => rfl
  | cons m t ih =>
    simp only [List.map_cons, List.nodup_cons] at hnd
    rw [canonPartOf, List.filterMap_cons, List.find?]
    cases hq : m.1 == k with
    | false =>
      simp only
      cases hb : canonBinding h m with
      | none => exact ih hnd.2
      | some p =>
        have hp1 : p.1 = m.1 := (canonBinding_eq_some hb).1
        rw [show p = (p.1, p.2) from rfl, lookupField_cons, hp1, hq]
        simp only [if_neg Bool.false_ne_true]
        exact ih hnd.2
    | true =>
      simp only [Option.some_bind]
      have hk : k = m.1 := (beq_iff_eq.mp hq).symm
      cases hb : canonBinding h m with
      | none =>
        have hnone : m.2.findSome? (fun a => lookupField h a) = none := by
          by_contra hc
          cases hcc : m.2.findSome? (fun a => lookupField h a) with
          | none => exact hc hcc
          | some v => simp [canonBinding, hcc] at hb
        rw [hnone]
        exact lookupField_canonPartOf_of_not_mem t h k (hk ▸ hnd.1)
      | some p =>
        obtain ⟨hp1, hfs⟩ := canonBinding_eq_some hb
        rw [show p = (p.1, p.2) from rfl, lookupField_cons, hp1, hq, if_pos rfl, hfs]

theorem lookupField_cons_pair {α : Type} (p : String × α) (t : List (String × α))
    (k : String) :
    lookupField (p :: t) k = if p.1 == k then some p.2 else lookupField t k := by
  rw [show p = (p.1, p.2) from rfl, lookupField_cons]

theorem lookupField_append_single_ne {α : Type} (base : List (String × α))
    (kv : String × α) (k : String) (hk : (kv.1 == k) = false) :
    lookupField (base ++ [kv]) k = lookupField base k := by
  rw [lookupField_append]
  cases hlb : lookupField base k
  · simp only
    rw [lookupField_cons_pair, hk]
    simp [lookupField_nil]
  · rfl

theorem lookupField_append_single_eq {α : Type} (base : List (String × α))
    (kv : String × α) (k : String) (hk : (kv.1 == k) = true)
    (hb : lookupField base k = none) :
    lookupField (base ++ [kv]) k = some kv.2 := by
  rw [lookupField_append, hb]
  simp only
  rw [lookupField_cons_pair, hk]
  simp

/-- What the pass-through loop contributes to each key: entries already in the
accumulated output win; otherwise a non-alias key gets its first input value
and an alias key is dropped. -/
theorem lookupField_passFold {α : Type} (h : List (String × α))
    (base : List (String × α)) (k : String) :
    lookupField (passFold h base) k =
      match lookupField base k with
      | some v => some v
      | none => if isAliasName k then none else lookupField h k := by
  induction h generalizing base with
  | nil =>
    simp only [passFold, List.foldl_nil, lookupField_nil]
    cases hb : lookupField base k
    · cases hia : isAliasName k <;> simp
    · rfl
  | cons kv t ih =>
    have hstep : passFold (kv :: t) base =
        passFold t
          (if hasField base kv.1 || isAliasName kv.1 then base else base ++ [kv]) := rfl
    rw [hstep, ih, lookupField_cons_pair]
    cases hk : kv.1 == k with
    | false =>
      have hb' :
          lookupField
            (if hasField base kv.1 || isAliasName kv.1 then base else base ++ [kv]) k
            = lookupField base k := by
        split
        · rfl
        · exact lookupField_append_single_ne base kv k hk
      rw [hb']
      cases hlb : lookupField base k <;> simp [hk]
    | true =>
      have hkk : kv.1 = k := beq_iff_eq.mp hk
      by_cases hc : hasField base kv.1 = true
      · have hcond : (hasField base kv.1 || isAliasName kv.1) = true := by
          rw [hc]; rfl
        rw [if_pos hcond]
        obtain ⟨v, hv⟩ : ∃ v, lookupField base k = some v := by
          rw [hasField, hkk] at hc
          cases hlb : lookupField base k with
          | none => rw [hlb] at hc; simp at hc
          | some v => exact ⟨v, rfl⟩
        rw [hv]
      · have hc' : hasField base kv.1 = false := by
          cases hcb : hasField base kv.1
          · rfl
          · exact absurd hcb hc
        have hicn : lookupField base k = none := by
          rw [hasField, hkk] at hc'
          cases hlb : lookupField base k with
          | none => rfl
          | some v => rw [hlb] at hc'; simp at hc'
        by_cases hia : isAliasName kv.1 = true
        · have hcond : (hasField base kv.1 || isAliasName kv.1) = true := by
            rw [hia]; simp
          rw [if_pos hcond, hicn]
          have hiak : isAliasName k = true := hkk ▸ hia
          simp [hiak]
        · have hia' : isAliasName kv.1 = false := by
            cases hib : isAliasName kv.1
            · rfl
            · exact absurd hib hia
          have hcond : ¬((hasField base kv.1 || isAliasName kv.1) = true) := by
            rw [hc', hia']; simp
          rw [if_neg hcond]
          rw [lookupField_append_single_eq base kv k hk hicn, hicn]
          have hiak : isAliasName k = false := hkk ▸ hia'
          simp [hiak, hk]

theorem lookupField_timePart {α : Type} (h : List (String × α)) (k : String) :
    lookupField (timePart h) k =
      if k = "time" then lookupField h "time" else none := by
  unfold timePart
  cases hl : lookupField h "time" with
  | none =>
    simp only [lookupField_nil]
    split <;> simp [hl]
  | some v =>
    rw [lookupField_cons]
    by_cases hk : k = "time"
    · subst hk; simp [hl]
    · have : ("time" == k) = false := by
        rw [beq_eq_false_iff_ne]
        exact fun hc => hk hc.symm
      simp [this, hk, lookupField_nil]

theorem canonicalNames_nodup : canonicalNames.Nodup := by decide

theorem time_not_canonical : "time" ∉ canonicalNames := by decide

theorem time_not_alias : isAliasName "time" = false := by decide

/-- Master characterization of `_normalize_field_names` on the hourly map:
the output binds `time` to the input's `time`; a key with a mapping row whose
alias scan hits is bound to the first present alias's value; a recognized
alias name is never a key of the output; and every other key keeps its input
value (including being absent when absent). -/
theorem lookupField_normalizeHourly {α : Type} (h : List (String × α))
    (k : String) :
    lookupField (normalizeHourly h) k =
      if k = "time" then lookupField h "time"
      else
        match canonAliasValue h k with
        | some v => some v
        | none => if isAliasName k then none else lookupField h k := by
  rw [normalizeHourly, lookupField_passFold, lookupField_append,
    lookupField_timePart]
  by_cases hkt : k = "time"
  · subst hkt
    simp only [if_pos rfl]
    cases hl : lookupField h "time" with
    | some v => rfl
    | none =>
      rw [lookupField_canonPartOf_of_not_mem fieldMappings h "time"
        time_not_canonical]
      simp [time_not_alias, hl]
  · simp only [if_neg hkt]
    rw [lookupField_canonPartOf fieldMappings h k canonicalNames_nodup]
    rfl

/-! ## Claim theorems -/

/-- C5: `should_update_data` returns due exactly when the snapshot file is
absent or its age `now - mtime` is at least the configured interval; the
default interval is 604800 s (7 days); a snapshot saved 8 days ago with the
7-day interval is due, one saved 1 hour ago is not. -/
theorem wsc5_staleness :
    DATA_UPDATE_INTERVAL = 604800 ∧
    (∀ now interval : Int, shouldUpdateData none now interval = true) ∧
    (∀ mtime now interval : Int,
      shouldUpdateData (some mtime) now interval = true ↔
        now - mtime ≥ interval) ∧
    (∀ now : Int,
      shouldUpdateData (some (now - 8 * 86400)) now DATA_UPDATE_INTERVAL
        = true) ∧
    (∀ now : Int,
      shouldUpdateData (some (now - 3600)) now DATA_UPDATE_INTERVAL
        = false) := by
  refine ⟨rfl, fun now interval => rfl, fun mtime now interval => ?_,
    fun now => ?_, fun now => ?_⟩
  · simp [shouldUpdateData]
  · simp only [shouldUpdateData, DATA_UPDATE_INTERVAL, decide_eq_true_eq]
    omega
  · simp only [shouldUpdateData, DATA_UPDATE_INTERVAL, decide_eq_false_iff_not]
    omega

/-- C1: a batch in which zero locations are accepted (the fetched-and-validated
record mapping is empty) makes `_perform_update` return failure and leaves the
snapshot file — and hence the value `load_weather_data` returns — exactly as
it was, whatever the write oracle would have done. -/
theorem wsc1_zero_accepted_fails (file : DiskFile)
    (locs : List (String × (Int × Int))) (f : String → FetchRes)
    (w : WriteResult) (hempty : (fetchBatch locs f).1 = []) :
    performUpdate file locs f w = (false, file) ∧
    loadWeatherData (performUpdate file locs f w).2 = loadWeatherData file := by
  have hmain : performUpdate file locs f w = (false, file) := by
    unfold performUpdate
    by_cases hl : locs.isEmpty
    · simp [hl]
    · simp [hl, hempty]
  exact ⟨hmain, by rw [hmain]⟩

theorem wsc1_witness :
    (fetchBatch [("Paris", ((48 : Int), (2 : Int)))] (fun _ => FetchRes.exc)).1
      = [] ∧
    performUpdate (DiskFile.content [("Oslo", wOld)])
        [("Paris", ((48 : Int), (2 : Int)))]
        (fun _ => FetchRes.exc) WriteResult.ok
      = (false, DiskFile.content [("Oslo", wOld)]) :=
  ⟨by decide,
   (wsc1_zero_accepted_fails (DiskFile.content [("Oslo", wOld)])
     [("Paris", ((48 : Int), (2 : Int)))] (fun _ => FetchRes.exc)
     WriteResult.ok (by decide)).1⟩

/-- The batch loop, characterized: it consults every location, keeps exactly
the fetched-and-accepted records in catalog order, counts them in `completed`,
and counts every other location in `failed`. -/
theorem fetchBatchAux_spec (locs : List (String × (Int × Int)))
    (f : String → FetchRes) (acc : List (String × WData)) (c fl : Nat) :
    fetchBatchAux locs f acc c fl =
      (acc ++ locs.filterMap (fun p =>
          match f p.1 with
          | FetchRes.ok d => if hasValidW d then some (p.1, d) else none
          | _ => none),
       c + locs.countP (fun p =>
          match f p.1 with
          | FetchRes.ok d => hasValidW d
          | _ => false),
       fl + locs.countP (fun p =>
          match f p.1 with
          | FetchRes.ok d => !(hasValidW d)
          | _ => true)) := by
  induction locs generalizing acc c fl with
  | nil => simp [fetchBatchAux]
  | cons p rest ih =>
    obtain ⟨city, coord⟩ := p
    simp only [fetchBatchAux]
    cases hf : f city with
    | ok d =>
      by_cases hv : hasValidW d = true
      · simp [ih, hf, hv, List.countP_cons, List.filterMap_cons,
          Prod.mk.injEq] <;> omega
      · have hv' : hasValidW d = false := by
          cases hvb : hasValidW d
          · rfl
          · exact absurd hvb hv
        simp [ih, hf, hv', List.countP_cons, List.filterMap_cons,
          Prod.mk.injEq] <;> omega
    | noData =>
      simp [ih, hf, List.countP_cons, List.filterMap_cons,
        Prod.mk.injEq] <;> omega
    | exc =>
      simp [ih, hf, List.countP_cons, List.filterMap_cons,
        Prod.mk.injEq] <;> omega

/-- C4: a per-location fetch failure never aborts the batch.  In general the
snapshot mapping is exactly the accepted locations in order, `completed`
counts them and `failed` counts the rest; in particular with 3 locations
where location 2 raises a transport error and 1 and 3 are accepted, the
result holds locations 1 and 3 only with a failure count of 1. -/
theorem wsc4_per_location_isolation :
    (∀ (locs : List (String × (Int × Int))) (f : String → FetchRes),
      fetchBatch locs f =
        (locs.filterMap (fun p =>
            match f p.1 with
            | FetchRes.ok d => if hasValidW d then some (p.1, d) else none
            | _ => none),
         locs.countP (fun p =>
            match f p.1 with
            | FetchRes.ok d => hasValidW d
            | _ => false),
         locs.countP (fun p =>
            match f p.1 with
            | FetchRes.ok d => !(hasValidW d)
            | _ => true))) ∧
    (∀ (f : String → FetchRes) (d1 d3 : WData),
      f "A" = FetchRes.ok d1 → f "B" = FetchRes.exc → f "C" = FetchRes.ok d3 →
      hasValidW d1 = true → hasValidW d3 = true →
      fetchBatch
          [("A", ((0 : Int), (0 : Int))), ("B", ((0 : Int), (0 : Int))),
           ("C", ((0 : Int), (0 : Int)))] f
        = ([("A", d1), ("C", d3)], 2, 1)) := by
  constructor
  · intro locs f
    rw [fetchBatch, fetchBatchAux_spec]
    simp
  · intro f d1 d3 h1 h2 h3 hv1 hv3
    rw [fetchBatch, fetchBatchAux_spec]
    simp [h1, h2, h3, hv1, hv3]

theorem wsc4_witness :
    fetchBatch
        [("A", ((0 : Int), (0 : Int))), ("B", ((0 : Int), (0 : Int))),
         ("C", ((0 : Int), (0 : Int)))]
        (fun c => if c = "B" then FetchRes.exc else FetchRes.ok wGood)
      = ([("A", wGood), ("C", wGood)], 2, 1) :=
  wsc4_per_location_isolation.2
    (fun c => if c = "B" then FetchRes.exc else FetchRes.ok wGood)
    wGood wGood (by decide) (by decide) (by decide) (by decide) (by decide)

theorem paramHasValidValues_eq_true (hourly : List (String × HVal))
    (param : String) :
    paramHasValidValues hourly param = true ↔
      ∃ values, lookupField hourly param = some (HVal.series values) ∧
        values.length < 4 * values.countP (fun v => v.isSome) := by
  unfold paramHasValidValues
  cases hl : lookupField hourly param with
  | none => simp
  | some v =>
    cases v with
    | series values => simp
    | scalar x => simp

/-- C2: the Quality Validator accepts a record exactly when it has an hourly
map and at least one of the four key parameters is present as a list whose
non-null sample count strictly exceeds a quarter of its length
(`4 * nonNull > length`).  In particular an hourly map whose four key
parameters are all-null is rejected, and one where a single key parameter is
30% non-null while the others are 0% non-null is accepted. -/
theorem wsc2_validator :
    (∀ data : Option WData,
      hasValidWeatherData data = true ↔
        ∃ d hourly, data = some d ∧ d.hourly = some hourly ∧
          ∃ p ∈ keyParams, ∃ values,
            lookupField hourly p = some (HVal.series values) ∧
              values.length < 4 * values.countP (fun v => v.isSome)) ∧
    hasValidWeatherData
        (some { hourly := some allNullHourly, city := "x",
                latitude := 0, longitude := 0 }) = false ∧
    hasValidWeatherData
        (some { hourly := some oneParamHourly, city := "x",
                latitude := 0, longitude := 0 }) = true := by
  refine ⟨fun data => ?_, by decide, by decide⟩
  cases data with
  | none => simp [hasValidWeatherData]
  | some d =>
    obtain ⟨ho, c, la, lo⟩ := d
    cases ho with
    | none => simp [hasValidWeatherData]
    | some hourly =>
      simp only [hasValidWeatherData, List.any_eq_true]
      constructor
      · rintro ⟨p, hp, hv⟩
        obtain ⟨values, hlv, hcount⟩ :=
          (paramHasValidValues_eq_true hourly p).mp hv
        exact ⟨_, hourly, rfl, rfl, p, hp, values, hlv, hcount⟩
      · rintro ⟨d', hourly', hd, hh, p, hp, values, hlv, hcount⟩
        cases hd
        simp only [Option.some.injEq] at hh
        subst hh
        exact ⟨p, hp, (paramHasValidValues_eq_true _ p).mpr
          ⟨values, hlv, hcount⟩⟩

theorem fetchMultipleCitiesData_length_le
    (locs : List (String × (Int × Int))) (limit : Int) (f : String → FetchRes)
    (count errors : Nat) :
    (fetchMultipleCitiesData locs limit f count errors).1.length
      ≤ locs.length := by
  induction locs generalizing count errors with
  | nil => simp [fetchMultipleCitiesData]
  | cons p rest ih =>
    obtain ⟨city, coord⟩ := p
    simp only [fetchMultipleCitiesData]
    split
    · simp
    · cases hf : f city with
      | ok d =>
        simp only [List.length_cons]
        exact Nat.succ_le_succ (ih (count + 1) errors)
      | noData => exact Nat.le_trans (ih count (errors + 1)) (by simp)
      | exc => exact Nat.le_trans (ih count (errors + 1)) (by simp)

/-- C9: the `limit` query parameter of the multi-location weather endpoint is
clamped to `[1, 300]` before use: below 1 it behaves as 1, above 300 as 300,
in range it is unchanged, and on both the live and the file-cache branch the
returned mapping never holds more locations than the clamped limit. -/
theorem wsc9_limit_clamped :
    (∀ limit : Int, limit < 1 → clampLimit limit = 1) ∧
    (∀ limit : Int, 300 < limit → clampLimit limit = 300) ∧
    (∀ limit : Int, 1 ≤ limit → limit ≤ 300 → clampLimit limit = limit) ∧
    (∀ (locations : List (String × (Int × Int))) (limit : Int)
        (f : String → FetchRes),
      ((getWeatherDataLive locations limit f).length : Int)
        ≤ clampLimit limit) ∧
    (∀ (data : Snapshot) (limit : Int),
      ((getWeatherDataFile data limit).length : Int) ≤ clampLimit limit) := by
  have hclamp1 : ∀ limit : Int, 1 ≤ clampLimit limit :=
    fun limit => le_max_left 1 _
  refine ⟨?_, ?_, ?_, ?_, ?_⟩
  · intro l hl
    rw [clampLimit, max_def, min_def]
    split_ifs <;> omega
  · intro l hl
    rw [clampLimit, max_def, min_def]
    split_ifs <;> omega
  · intro l h1 h2
    rw [clampLimit, max_def, min_def]
    split_ifs <;> omega
  · intro locations limit f
    have h1 := fetchMultipleCitiesData_length_le
      (locations.take (clampLimit limit).toNat) (clampLimit limit) f 0 0
    have h2 : (locations.take (clampLimit limit).toNat).length
        ≤ (clampLimit limit).toNat := by
      simp [List.length_take]
    have h3 := Nat.le_trans h1 h2
    have h4 : ((clampLimit limit).toNat : Int) = clampLimit limit :=
      Int.toNat_of_nonneg (by have := hclamp1 limit; omega)
    calc ((getWeatherDataLive locations limit f).length : Int)
        ≤ ((clampLimit limit).toNat : Int) := by exact_mod_cast h3
      _ = clampLimit limit := h4
  · intro data limit
    rw [getWeatherDataFile]
    split
    · rename_i hlt
      have h4 : ((clampLimit limit).toNat : Int) = clampLimit limit :=
        Int.toNat_of_nonneg (by have := hclamp1 limit; omega)
      have : (data.take (clampLimit limit).toNat).length
          ≤ (clampLimit limit).toNat := by
        simp [List.length_take]
      calc ((data.take (clampLimit limit).toNat).length : Int)
          ≤ ((clampLimit limit).toNat : Int) := by exact_mod_cast this
        _ = clampLimit limit := h4
    · rename_i hge
      omega

theorem wsc9_witness :
    clampLimit (-5) = 1 ∧ clampLimit 1000 = 300 ∧ clampLimit 42 = 42 ∧
    ((getWeatherDataLive [("A", ((0 : Int), (0 : Int)))] (-5)
        (fun _ => FetchRes.ok wGood)).length : Int) ≤ clampLimit (-5) :=
  ⟨wsc9_limit_clamped.1 (-5) (by decide),
   wsc9_limit_clamped.2.1 1000 (by decide),
   wsc9_limit_clamped.2.2.1 42 (by decide) (by decide),
   wsc9_limit_clamped.2.2.2.1 [("A", ((0 : Int), (0 : Int)))] (-5)
     (fun _ => FetchRes.ok wGood)⟩

theorem currentEntry_series (qk : String) (values : List (Option Int)) :
    currentEntry (qk, HVal.series values) =
      if values.length > 1 then values.getLast?.map (fun last => (qk, last))
      else none := rfl

theorem currentEntry_scalar (qk : String) (x : Int) :
    currentEntry (qk, HVal.scalar x) = none := rfl

theorem lookupField_currentConditions_of_not_mem
    (hourly : List (String × HVal)) (p : String)
    (hp : p ∉ hourly.map (fun q => q.1)) :
    lookupField (getCurrentConditionsCurrent hourly) p = none := by
  induction hourly with
  | nil => rfl
  | cons q t ih =>
    obtain ⟨qk, qv⟩ := q
    simp only [List.map_cons, List.mem_cons, not_or] at hp
    rw [getCurrentConditionsCurrent, List.filterMap_cons]
    have hq : (qk == p) = false := by
      rw [beq_eq_false_iff_ne]
      exact fun hc => hp.1 hc.symm
    have htail : lookupField (t.filterMap currentEntry) p = none := ih hp.2
    cases qv with
    | scalar x =>
      rw [currentEntry_scalar]
      exact htail
    | series values =>
      rw [currentEntry_series]
      by_cases hlen : values.length > 1
      · rw [if_pos hlen]
        cases hgl : values.getLast? with
        | none => exact htail
        | some last =>
          simp only [Option.map_some', lookupField_cons_pair, hq]
          simpa using htail
      · rw [if_neg hlen]
        exact htail

/-- C10: the `current` mapping built by `get_current_conditions` binds a
parameter exactly when its hourly value is a list with at least two samples
(`len(values) > abs(-1)` with index `-1`), in which case it is bound to the
last sample; a one-sample series or a non-list value is silently omitted. -/
theorem wsc10_current_conditions (hourly : List (String × HVal))
    (hnd : (hourly.map (fun q => q.1)).Nodup) (p : String) :
    lookupField (getCurrentConditionsCurrent hourly) p =
      match lookupField hourly p with
      | some (HVal.series values) =>
        if values.length > 1 then values.getLast? else none
      | _ => none := by
  induction hourly with
  | nil => rfl
  | cons q t ih =>
    obtain ⟨qk, qv⟩ := q
    simp only [List.map_cons, List.nodup_cons] at hnd
    rw [getCurrentConditionsCurrent, List.filterMap_cons, lookupField_cons]
    have htail : lookupField (t.filterMap currentEntry) p =
        match lookupField t p with
        | some (HVal.series values) =>
          if values.length > 1 then values.getLast? else none
        | _ => none := ih hnd.2
    cases hq : qk == p with
    | false =>
      simp only [if_neg Bool.false_ne_true]
      cases qv with
      | scalar x =>
        rw [currentEntry_scalar]
        exact htail
      | series values =>
        rw [currentEntry_series]
        by_cases hlen : values.length > 1
        · rw [if_pos hlen]
          cases hgl : values.getLast? with
          | none => exact htail
          | some last =>
            simp only [Option.map_some', lookupField_cons_pair, hq]
            simpa using htail
        · rw [if_neg hlen]
          exact htail
    | true =>
      have hqp : qk = p := beq_iff_eq.mp hq
      have hpt : p ∉ t.map (fun r => r.1) := hqp ▸ hnd.1
      have htnone : lookupField (t.filterMap currentEntry) p = none :=
        lookupField_currentConditions_of_not_mem t p hpt
      simp only [if_pos rfl]
      cases qv with
      | scalar x =>
        rw [currentEntry_scalar]
        exact htnone
      | series values =>
        rw [currentEntry_series]
        by_cases hlen : values.length > 1
        · rw [if_pos hlen]
          cases hgl : values.getLast? with
          | none =>
            have hne : values ≠ [] := by
              intro hc
              rw [hc] at hlen
              simp at hlen
            rw [List.getLast?_eq_getLast values hne] at hgl
            simp at hgl
          | some last =>
            simp only [Option.map_some', lookupField_cons_pair, hq,
              if_pos hlen]
            simp
            exact ⟨hlen, hgl.symm⟩
        · rw [if_neg hlen]
          simp [htnone, hlen]

theorem wsc10_witness :
    lookupField
        (getCurrentConditionsCurrent
          [("time", HVal.scalar 0),
           ("temperature_2m", HVal.series [some 1, some 2, some 3]),
           ("uv_index", HVal.series [some 9]),
           ("pressure_msl", HVal.series [some 4, none])])
        "temperature_2m" = some (some 3) ∧
    lookupField
        (getCurrentConditionsCurrent
          [("time", HVal.scalar 0),
           ("temperature_2m", HVal.series [some 1, some 2, some 3]),
           ("uv_index", HVal.series [some 9]),
           ("pressure_msl", HVal.series [some 4, none])])
        "uv_index" = none := by
  have h1 := wsc10_current_conditions
    [("time", HVal.scalar 0),
     ("temperature_2m", HVal.series [some 1, some 2, some 3]),
     ("uv_index", HVal.series [some 9]),
     ("pressure_msl", HVal.series [some 4, none])]
    (by decide) "temperature_2m"
  have h2 := wsc10_current_conditions
    [("time", HVal.scalar 0),
     ("temperature_2m", HVal.series [some 1, some 2, some 3]),
     ("uv_index", HVal.series [some 9]),
     ("pressure_msl", HVal.series [some 4, none])]
    (by decide) "uv_index"
  rw [h1, h2]
  exact ⟨by decide, by decide⟩

theorem find?_eq_of_mem_of_nodup (ms : List (String × List String))
    (g : String) (L : List String) (hmem : (g, L) ∈ ms)
    (hnd : (ms.map (fun m => m.1)).Nodup) :
    ms.find? (fun m => m.1 == g) = some (g, L) := by
  induction ms with
  | nil => simp at hmem
  | cons m t ih =>
    simp only [List.map_cons, List.nodup_cons] at hnd
    rcases List.mem_cons.mp hmem with heq | hmem'
    · rw [List.find?, ← heq]
      simp
    · have hg : g ∈ t.map (fun m => m.1) :=
        List.mem_map.mpr ⟨(g, L), hmem', rfl⟩
      have hne : (m.1 == g) = false := by
        rw [beq_eq_false_iff_ne]
        intro hc
        exact hnd.1 (hc ▸ hg)
      rw [List.find?, hne]
      exact ih hmem' hnd.2

theorem canonical_not_alias : ∀ g ∈ canonicalNames, isAliasName g = false := by
  decide

theorem isAliasName_of_mem {a : String} {m : String × List String}
    (hm : m ∈ fieldMappings) (ha : a ∈ m.2) : isAliasName a = true := by
  simp only [isAliasName, List.any_eq_true]
  exact ⟨m, hm, by simpa using ha⟩

/-- C3 fails as stated: with an input holding the canonical name
`temperature_2m` directly, no alias of `temperature_2m` is present, yet the
canonical field is present in the normalizer's output (passed through), not
absent. -/
theorem wsc3_counterexample :
    ("temperature_2m", tempAliases) ∈ fieldMappings ∧
    (∀ a ∈ tempAliases, lookupField hCanonOnly a = none) ∧
    lookupField (normalizeHourly hCanonOnly) "temperature_2m" = some 1 := by
  refine ⟨by decide, by decide, by decide⟩

/-- C3 amended: `time` is copied verbatim; a canonical field with a mapping
row takes the value of the first present alias when some alias is present;
when no alias is present the canonical field keeps exactly its input binding
(present with its input value if the input holds the canonical name, absent
otherwise — never null-filled); and every input field that is neither bound
by the alias scan nor a recognized alias passes through with its input
value. -/
theorem wsc3_amended_normalizer {α : Type} (h : List (String × α)) :
    (∀ v, lookupField h "time" = some v →
      lookupField (normalizeHourly h) "time" = some v) ∧
    (∀ g L v, (g, L) ∈ fieldMappings →
      L.findSome? (fun a => lookupField h a) = some v →
      lookupField (normalizeHourly h) g = some v) ∧
    (∀ g L, (g, L) ∈ fieldMappings →
      (∀ a ∈ L, lookupField h a = none) →
      lookupField (normalizeHourly h) g = lookupField h g) ∧
    (∀ k v, lookupField h k = some v → isAliasName k = false →
      boundCanonically h k = false →
      lookupField (normalizeHourly h) k = some v) := by
  refine ⟨?_, ?_, ?_, ?_⟩
  · intro v hv
    rw [lookupField_normalizeHourly, if_pos rfl, hv]
  · intro g L v hmem hfs
    have hgc : g ∈ canonicalNames := List.mem_map.mpr ⟨(g, L), hmem, rfl⟩
    have hgt : g ≠ "time" := fun hc => time_not_canonical (hc ▸ hgc)
    rw [lookupField_normalizeHourly, if_neg hgt]
    have hcav : canonAliasValue h g = some v := by
      rw [canonAliasValue,
        find?_eq_of_mem_of_nodup fieldMappings g L hmem canonicalNames_nodup]
      simpa using hfs
    rw [hcav]
  · intro g L hmem hall
    have hgc : g ∈ canonicalNames := List.mem_map.mpr ⟨(g, L), hmem, rfl⟩
    have hgt : g ≠ "time" := fun hc => time_not_canonical (hc ▸ hgc)
    rw [lookupField_normalizeHourly, if_neg hgt]
    have hcav : canonAliasValue h g = none := by
      rw [canonAliasValue,
        find?_eq_of_mem_of_nodup fieldMappings g L hmem canonicalNames_nodup]
      simpa using findSome?_eq_none_of_all_none hall
    rw [hcav]
    simp [canonical_not_alias g hgc]
  · intro k v hv hka hkb
    rw [lookupField_normalizeHourly]
    by_cases hkt : k = "time"
    · subst hkt
      rw [if_pos rfl, hv]
    · rw [if_neg hkt]
      have hcav : canonAliasValue h k = none := by
        rw [canonAliasValue]
        cases hf : fieldMappings.find? (fun m => m.1 == k) with
        | none => rfl
        | some m =>
          have hmF : m ∈ fieldMappings := List.mem_of_find?_eq_some hf
          have hmk := List.find?_some hf
          simp only [Option.some_bind]
          apply findSome?_eq_none_of_all_none
          intro a ha
          cases hla : lookupField h a with
          | none => rfl
          | some w =>
            exfalso
            have : m.2.any (fun a => hasField h a) = true := by
              simp only [List.any_eq_true]
              exact ⟨a, ha, by simp [hasField, hla]⟩
            have hcontra : boundCanonically h k = true := by
              simp only [boundCanonically, List.any_eq_true]
              exact ⟨m, hmF, by simp [hmk, this]⟩
            rw [hcontra] at hkb
            simp at hkb
      rw [hcav]
      simp [hka, hv]

theorem wsc3_witness :
    lookupField (normalizeHourly hMixed) "time" = some 10 ∧
    lookupField (normalizeHourly hMixed) "temperature_2m" = some 5 ∧
    lookupField (normalizeHourly hMixed) "uv_index" = some 7 :=
  ⟨(wsc3_amended_normalizer hMixed).1 10 (by decide),
   (wsc3_amended_normalizer hMixed).2.1 "temperature_2m" tempAliases 5
     (by decide) (by decide),
   (wsc3_amended_normalizer hMixed).2.2.2 "uv_index" 7
     (by decide) (by decide) (by decide)⟩

/-- C8: the normalizer is the identity, as a map, on inputs whose keys
include no model-qualified alias: every key looks up to exactly its input
value, so an already-canonical hourly map is returned unchanged. -/
theorem wsc8_idempotent {α : Type} (h : List (String × α))
    (hcanon : ∀ p ∈ h, isAliasName p.1 = false) (k : String) :
    lookupField (normalizeHourly h) k = lookupField h k := by
  rw [lookupField_normalizeHourly]
  by_cases hkt : k = "time"
  · subst hkt
    rw [if_pos rfl]
  · rw [if_neg hkt]
    have halias_absent : ∀ a, isAliasName a = true → lookupField h a = none := by
      intro a hal
      cases hla : lookupField h a with
      | none => rfl
      | some v =>
        exfalso
        obtain ⟨p, hp, hpa⟩ := List.mem_map.mp (mem_keys_of_lookupField hla)
        have hpf := hcanon p hp
        rw [hpa, hal] at hpf
        simp at hpf
    have hcav : canonAliasValue h k = none := by
      rw [canonAliasValue]
      cases hf : fieldMappings.find? (fun m => m.1 == k) with
      | none => rfl
      | some m =>
        have hmF : m ∈ fieldMappings := List.mem_of_find?_eq_some hf
        simp only [Option.some_bind]
        apply findSome?_eq_none_of_all_none
        intro a ha
        exact halias_absent a (isAliasName_of_mem hmF ha)
    simp only [hcav]
    cases hka : isAliasName k with
    | true =>
      have hnone := halias_absent k hka
      simp [hka, hnone]
    | false => simp [hka]

theorem wsc8_witness :
    lookupField (normalizeHourly hCanonThree) "temperature_2m"
      = lookupField hCanonThree "temperature_2m" ∧
    lookupField (normalizeHourly hCanonThree) "time"
      = lookupField hCanonThree "time" ∧
    lookupField (normalizeHourly hCanonThree) "uv_index"
      = lookupField hCanonThree "uv_index" :=
  ⟨wsc8_idempotent hCanonThree (by decide) "temperature_2m",
   wsc8_idempotent hCanonThree (by decide) "time",
   wsc8_idempotent hCanonThree (by decide) "uv_index"⟩

/-- C6 fails as stated: a replace whose persistence fails never leaves the
new snapshot readable — there is no in-memory snapshot in the code.  With a
failure before the file is opened, the previous snapshot is read back; with
a failure during `json.dump` (after `open('w')` has truncated the file),
the corrupt file is read back as `None`; neither is the new snapshot. -/
theorem wsc6_counterexample :
    (fetchBatch [("Paris", ((48 : Int), (2 : Int)))]
        (fun _ => FetchRes.ok wGood)).1 = [("Paris", wGood)] ∧
    loadWeatherData
        (performUpdate (DiskFile.content [("Oslo", wOld)])
          [("Paris", ((48 : Int), (2 : Int)))]
          (fun _ => FetchRes.ok wGood) WriteResult.errBeforeOpen).2
      = some [("Oslo", wOld)] ∧
    loadWeatherData
        (performUpdate (DiskFile.content [("Oslo", wOld)])
          [("Paris", ((48 : Int), (2 : Int)))]
          (fun _ => FetchRes.ok wGood) WriteResult.errDuringDump).2
      = none ∧
    (some [("Oslo", wOld)] : Option Snapshot) ≠ some [("Paris", wGood)] ∧
    (none : Option Snapshot) ≠ some [("Paris", wGood)] := by
  refine ⟨by decide, by decide, by decide, by decide, by decide⟩

/-- C6 amended: a replace that persists successfully, followed immediately
by a read, returns the new snapshot.  There is no in-memory snapshot
independent of persistence: when persistence fails the update reports
failure, and what `load_weather_data` then returns depends on where the
write failed — before the file is opened, the previous snapshot; during
`json.dump` (the file already truncated by `open('w')`), `None`; after a
successful dump (in the `stat` call of the logging line), the new snapshot
is on disk even though the update reported failure. -/
theorem wsc6_amended_replace (file : DiskFile)
    (locs : List (String × (Int × Int))) (f : String → FetchRes)
    (hne : (fetchBatch locs f).1 ≠ []) :
    (performUpdate file locs f WriteResult.ok
        = (true, DiskFile.content (fetchBatch locs f).1) ∧
      loadWeatherData (performUpdate file locs f WriteResult.ok).2
        = some (fetchBatch locs f).1) ∧
    (performUpdate file locs f WriteResult.errBeforeOpen = (false, file) ∧
      loadWeatherData (performUpdate file locs f WriteResult.errBeforeOpen).2
        = loadWeatherData file) ∧
    (performUpdate file locs f WriteResult.errDuringDump
        = (false, DiskFile.corrupt) ∧
      loadWeatherData (performUpdate file locs f WriteResult.errDuringDump).2
        = none) ∧
    (performUpdate file locs f WriteResult.errAfterDump
        = (false, DiskFile.content (fetchBatch locs f).1) ∧
      loadWeatherData (performUpdate file locs f WriteResult.errAfterDump).2
        = some (fetchBatch locs f).1) := by
  have hlocs : locs.isEmpty = false := by
    cases hl : locs with
    | nil =>
      exfalso
      apply hne
      rw [hl]
      rfl
    | cons a t => rfl
  have hfe : (fetchBatch locs f).1.isEmpty = false := by
    cases hfb : (fetchBatch locs f).1 with
    | nil => exact absurd hfb hne
    | cons a t => rfl
  have hok : performUpdate file locs f WriteResult.ok
      = (true, DiskFile.content (fetchBatch locs f).1) := by
    simp [performUpdate, hlocs, hfe]
  have hb : performUpdate file locs f WriteResult.errBeforeOpen
      = (false, file) := by
    simp [performUpdate, hlocs, hfe]
  have hd : performUpdate file locs f WriteResult.errDuringDump
      = (false, DiskFile.corrupt) := by
    simp [performUpdate, hlocs, hfe]
  have ha : performUpdate file locs f WriteResult.errAfterDump
      = (false, DiskFile.content (fetchBatch locs f).1) := by
    simp [performUpdate, hlocs, hfe]
  exact ⟨⟨hok, by simp [hok, loadWeatherData]⟩,
    ⟨hb, by simp [hb]⟩,
    ⟨hd, by simp [hd, loadWeatherData]⟩,
    ⟨ha, by simp [ha, loadWeatherData]⟩⟩

theorem wsc6_witness :
    performUpdate (DiskFile.content [("Oslo", wOld)])
        [("Paris", ((48 : Int), (2 : Int)))]
        (fun _ => FetchRes.ok wGood) WriteResult.ok
      = (true, DiskFile.content [("Paris", wGood)]) ∧
    loadWeatherData
        (performUpdate (DiskFile.content [("Oslo", wOld)])
          [("Paris", ((48 : Int), (2 : Int)))]
          (fun _ => FetchRes.ok wGood) WriteResult.errDuringDump).2
      = none ∧
    performUpdate (DiskFile.content [("Oslo", wOld)])
        [("Paris", ((48 : Int), (2 : Int)))]
        (fun _ => FetchRes.ok wGood) WriteResult.errBeforeOpen
      = (false, DiskFile.content [("Oslo", wOld)]) := by
  have h := wsc6_amended_replace (DiskFile.content [("Oslo", wOld)])
    [("Paris", ((48 : Int), (2 : Int)))] (fun _ => FetchRes.ok wGood)
    (by decide)
  have hfb : (fetchBatch [("Paris", ((48 : Int), (2 : Int)))]
      (fun _ => FetchRes.ok wGood)).1 = [("Paris", wGood)] := by decide
  refine ⟨?_, h.2.2.1.2, h.2.1.1⟩
  rw [h.1.1, hfb]

/-- C7 fails as stated: timeout, connection failure and a non-2xx status all
produce the same caller-observable value `None`; the three causes are not
distinct outcome variants for the caller. -/
theorem wsc7_counterexample :
    fetchLiveWeatherData "Paris" 48 2 HttpOutcome.timeout = none ∧
    fetchLiveWeatherData "Paris" 48 2 HttpOutcome.connectionError = none ∧
    fetchLiveWeatherData "Paris" 48 2 (HttpOutcome.response 500 wGood)
      = none ∧
    fetchLiveWeatherData "Paris" 48 2 HttpOutcome.timeout
      = fetchLiveWeatherData "Paris" 48 2 HttpOutcome.connectionError ∧
    fetchLiveWeatherData "Paris" 48 2 HttpOutcome.timeout
      = fetchLiveWeatherData "Paris" 48 2 (HttpOutcome.response 500 wGood) := by
  refine ⟨rfl, rfl, by decide, rfl, by decide⟩

/-- C7 amended: the fetch client catches timeout, connection failure and
HTTP-error status in separate handlers, but all three return the same
generic failure value `None` to the caller; only a status `< 400` yields a
record (normalized and stamped with metadata). -/
theorem wsc7_amended_outcomes (city : String) (lat lon : Int) :
    fetchLiveWeatherData city lat lon HttpOutcome.timeout = none ∧
    fetchLiveWeatherData city lat lon HttpOutcome.connectionError = none ∧
    (∀ (status : Nat) (body : WData), 400 ≤ status →
      fetchLiveWeatherData city lat lon (HttpOutcome.response status body)
        = none) ∧
    (∀ (status : Nat) (body : WData), status < 400 →
      fetchLiveWeatherData city lat lon (HttpOutcome.response status body)
        = some { hourly := body.hourly.map (fun hh => normalizeHourly hh),
                 city := city, latitude := lat, longitude := lon }) := by
  refine ⟨rfl, rfl, ?_, ?_⟩
  · intro status body hs
    simp [fetchLiveWeatherData, hs]
  · intro status body hs
    have hns : ¬(status ≥ 400) := by omega
    simp [fetchLiveWeatherData, hns]

theorem wsc7_witness :
    fetchLiveWeatherData "Paris" 48 2 (HttpOutcome.response 404 wOld)
      = none ∧
    fetchLiveWeatherData "Paris" 48 2 (HttpOutcome.response 200 wOld)
      = some { hourly := wOld.hourly.map (fun hh => normalizeHourly hh),
               city := "Paris", latitude := 48, longitude := 2 } :=
  ⟨(wsc7_amended_outcomes "Paris" 48 2).2.2.1 404 wOld (by decide),
   (wsc7_amended_outcomes "Paris" 48 2).2.2.2 200 wOld (by decide)⟩

